import Mathlib

/-!
Verification of the Student Record Store demonstrated in
`src/lib/sqlalchemy_sandbox.py`.

The script declares one declarative entity `Student` on table `students`
with `__table_args__` holding `PrimaryKeyConstraint('id', name='id_pk')`,
`UniqueConstraint('email', name='unique_email')` and
`CheckConstraint('grade BETWEEN 1 AND 12', name='grade_between_1_and_12')`,
and then runs a fixed sequence of session operations: bulk insert of two
sample students, several queries (ordering, limiting, counting, filtering),
a grade-increment update with commit, and a delete with commit followed by
a re-query and a field dereference of the re-queried (absent) record.

We embed the store as a list of committed rows.  Session commits are
modelled as functions returning `Except ConstraintViolation`: the
declared constraints are validated when a unit of work is flushed at
commit time (never at field-assignment time), and a failed commit leaves
the committed store unchanged (the transaction is rolled back as one
unit).  Dates (`DateTime` columns) are abstracted as natural-number
timestamps; their only role in the claims is identity and the moment at
which `datetime.now()` is evaluated.
-/

/-- A committed row of table `students`, one field per `Column` of the
`Student` class (`id`, `name`, `email`, `grade`, `birthday`,
`enrolled_date`).  `DateTime` values are abstract timestamps. -/
structure Student where
  id : Nat
  name : String
  email : String
  grade : Int
  birthday : Nat
  enrolled_date : Nat
deriving DecidableEq

/-- The committed state of the `students` table. -/
abbrev Store := List Student

/-- Errors raised at commit time, one per declared constraint of
`__table_args__`: `unique_email`, `grade_between_1_and_12`, `id_pk`. -/
inductive ConstraintViolation where
  | uniqueEmail
  | gradeRange
  | primaryKey
deriving DecidableEq

/-- The `CheckConstraint 'grade BETWEEN 1 AND 12'`: SQL `BETWEEN` is
inclusive on both ends. -/
def gradeOk (g : Int) : Bool := decide (1 ≤ g ∧ g ≤ 12)

/-- The `UniqueConstraint('email')` over a whole table state: no two rows
share an email. -/
def emailsNodup : Store → Bool
  | [] => true
  | s :: rest => rest.all (fun t => !(t.email == s.email)) && emailsNodup rest

/-- The `PrimaryKeyConstraint('id')` over a whole table state: no two rows
share an id. -/
def idsNodup : Store → Bool
  | [] => true
  | s :: rest => rest.all (fun t => !(t.id == s.id)) && idsNodup rest

/-- A table state satisfying every declared constraint of
`__table_args__`. -/
def validStore (store : Store) : Bool :=
  store.all (fun s => gradeOk s.grade) && emailsNodup store && idsNodup store

/-- The schema state captured when the class body of `Student` executes:
`Column(DateTime(), default=datetime.now())` calls `datetime.now()` once,
at schema-definition time, and stores the resulting value as the column
default. -/
structure Schema where
  enrolledDefault : Nat

/-- Executing the `Student` class body at wall-clock instant `now`
captures that instant as the fixed `enrolled_date` default. -/
def defineSchema (now : Nat) : Schema := ⟨now⟩

/-- A `Student(...)` instance as constructed in Python, before the store
assigns its `id`.  Field assignment performs no validation. -/
structure NewStudent where
  name : String
  email : String
  grade : Int
  birthday : Nat
  enrolled_date : Nat
deriving DecidableEq

/-- Constructing `Student(name=..., email=..., grade=..., birthday=...)`
at wall-clock instant `now`.  When `enrolled` is absent the column default
applies: the value captured by `defineSchema`, not `now` — the source's
`default=datetime.now()` was evaluated once at class-definition time.
Construction is total: no constraint is checked here. -/
def newStudent (sch : Schema) (now : Nat) (name email : String) (grade : Int)
    (birthday : Nat) (enrolled : Option Nat) : NewStudent :=
  { name := name, email := email, grade := grade, birthday := birthday,
    enrolled_date := enrolled.getD sch.enrolledDefault }

/-- The id the store assigns to the next inserted row (SQLite assigns
`max(rowid) + 1`, so a fresh table numbers rows 1, 2, ...). -/
def nextId (store : Store) : Nat := (store.map (fun s => s.id)).foldr max 0 + 1

/-- A staged instance with its store-assigned id. -/
def assignId (store : Store) (s : NewStudent) : Student :=
  { id := nextId store, name := s.name, email := s.email, grade := s.grade,
    birthday := s.birthday, enrolled_date := s.enrolled_date }

/-- One INSERT executed against the current table state during a flush:
the row's declared constraints are checked here (and only here).  A fresh
`max + 1` id can never collide, so the primary-key check cannot fire on
insert. -/
def insertOne (store : Store) (s : NewStudent) : Except ConstraintViolation Store :=
  if !(gradeOk s.grade) then .error .gradeRange
  else if store.any (fun t => t.email == s.email) then .error .uniqueEmail
  else .ok (store ++ [assignId store s])

/-- Flushing a list of staged inserts in order, each checked against the
table state that includes the earlier inserts of the same flush. -/
def flushInserts : Store → List NewStudent → Except ConstraintViolation Store
  | store, [] => .ok store
  | store, s :: rest =>
    match insertOne store s with
    | .ok store2 => flushInserts store2 rest
    | .error v => .error v

/-- `session.bulk_save_objects(staged)` (or `session.add` per object)
followed by `session.commit()`: the staged inserts are flushed atomically
as one unit of work.  On any constraint violation the whole transaction is
rolled back, so the `Except.error` result carries no partial store. -/
def commitInserts (store : Store) (staged : List NewStudent) :
    Except ConstraintViolation Store :=
  flushInserts store staged

/-- The committed table state after a commit attempt: the new state on
success, the untouched previous state after a rollback. -/
def storeAfter (store : Store) (r : Except ConstraintViolation Store) : Store :=
  match r with
  | .ok s => s
  | .error _ => store

/-- SQL `LIKE` matching on character lists, fuelled so that the recursion
is structural: `%` matches any (possibly empty) run of characters, `_`
matches exactly one character, any other pattern character matches
itself.  Every recursive call shrinks `pattern.length + text.length`, so
fuel `pattern.length + text.length + 1` always suffices and the fuel-zero
branch is unreachable. -/
def likeAux : Nat → List Char → List Char → Bool
  | 0, _, _ => false
  | _ + 1, [], [] => true
  | n + 1, '%' :: ps, [] => likeAux n ps []
  | _ + 1, _ :: _, [] => false
  | _ + 1, [], _ :: _ => false
  | n + 1, '%' :: ps, c :: cs => likeAux n ps (c :: cs) || likeAux n ('%' :: ps) cs
  | n + 1, '_' :: ps, _ :: cs => likeAux n ps cs
  | n + 1, p :: ps, c :: cs => (p == c) && likeAux n ps cs

/-- `text LIKE pattern`, as used by `Student.name.like('%Alan%')`. -/
def likeMatch (pattern text : String) : Bool :=
  likeAux (pattern.length + text.length + 1) pattern.data text.data

/-- `query(...).filter(p1, p2, ...)`: rows matching the conjunction of
all given predicates. -/
def filterQuery (preds : List (Student → Bool)) (rows : List Student) : List Student :=
  rows.filter (fun s => preds.all (fun p => p s))

/-- `query(...).first()`: the first row of the (already filtered and
ordered) result sequence, or an absent result when no row matches. -/
def queryFirst (rows : List Student) : Option Student := rows.head?

/-- The direction argument of `order_by`: plain column for ascending,
`desc(column)` for descending. -/
inductive Direction where
  | asc
  | desc
deriving DecidableEq

/-- The row ordering induced by a column key and a direction. -/
def dirRel (key : Student → Int) : Direction → Student → Student → Prop
  | .asc => fun a b => key a ≤ key b
  | .desc => fun a b => key b ≤ key a

instance dirRelDecidable (key : Student → Int) (dir : Direction) :
    DecidableRel (dirRel key dir) :=
  match dir with
  | .asc => fun a b => Int.decLe (key a) (key b)
  | .desc => fun a b => Int.decLe (key b) (key a)

instance dirRelTotal (key : Student → Int) (dir : Direction) :
    IsTotal Student (dirRel key dir) :=
  match dir with
  | .asc => ⟨fun a b => Int.le_total (key a) (key b)⟩
  | .desc => ⟨fun a b => Int.le_total (key b) (key a)⟩

instance dirRelTrans (key : Student → Int) (dir : Direction) :
    IsTrans Student (dirRel key dir) :=
  match dir with
  | .asc => ⟨fun _ _ _ h1 h2 => le_trans h1 h2⟩
  | .desc => ⟨fun _ _ _ h1 h2 => le_trans h2 h1⟩

/-- `query(...).order_by(key)` / `order_by(desc(key))`: sorts the result
sequence by the column key in the given direction (a stable insertion
sort models the engine's ordering). -/
def order_by (key : Student → Int) (dir : Direction) (rows : List Student) :
    List Student :=
  List.insertionSort (dirRel key dir) rows

/-- The `Student.grade` column as an `order_by` key. -/
def gradeKey (s : Student) : Int := s.grade

/-- The in-memory mutation `student.grade += 1` applied to one tracked
row; no validation happens at this assignment. -/
def bumpGrade (s : Student) : Student := { s with grade := s.grade + 1 }

/-- The update loop `for student in session.query(Student): student.grade += 1`:
every row's grade is incremented in memory. -/
def incrementAllGrades (store : Store) : Store := store.map bumpGrade

/-- Committing a fully materialised new table state (as a flush of UPDATE
statements produces): every declared constraint is re-validated; on
violation the transaction rolls back and no row changes. -/
def commitStore (new : Store) : Except ConstraintViolation Store :=
  if !(new.all (fun s => gradeOk s.grade)) then .error .gradeRange
  else if !(emailsNodup new) then .error .uniqueEmail
  else if !(idsNodup new) then .error .primaryKey
  else .ok new

/-- The grade-increment update followed by `session.commit()`. -/
def incCommit (store : Store) : Except ConstraintViolation Store :=
  commitStore (incrementAllGrades store)

/-- The committed state after the first increment-and-commit round
(unchanged when that commit rolled back). -/
def afterFirstInc (store : Store) : Store := storeAfter store (incCommit store)

/-- The second increment-and-commit round, run against whatever the first
round left committed. -/
def secondInc (store : Store) : Except ConstraintViolation Store :=
  incCommit (afterFirstInc store)

/-- The committed state after both increment-and-commit rounds. -/
def afterSecondInc (store : Store) : Store :=
  storeAfter (afterFirstInc store) (secondInc store)

/-- `session.delete(victim)` followed by `session.commit()`: the DELETE
removes the row with the victim's primary key; a delete violates none of
the declared constraints, so this commit always succeeds. -/
def deleteCommit (store : Store) (victim : Student) : Store :=
  store.filter (fun t => !(t.id == victim.id))

/-- The error raised when Python dereferences an attribute of `None`
(the final `albert_einstein.name` after the delete). -/
inductive AccessError where
  | attributeOfNone
deriving DecidableEq

/-- Reading `.name` off a `first()` result: on a present row it yields
the name; on an absent result it raises (Python `AttributeError` on
`None`), because the access is not guarded. -/
def derefName : Option Student → Except AccessError String
  | none => .error .attributeOfNone
  | some s => .ok s.name

/-!
The persisted schema (`Base.metadata.create_all`).

`__table_args__` carries the three named constraints, which declarative
attaches to the `students` table.  The class body also evaluates the bare
expression `Index('index_name', 'name')`; an `Index` built from string
column names is only associated with a table when it is listed in
`__table_args__` (or passed to a `Table(...)` constructor), and
declarative ignores a class-body expression that is not assigned to a
class attribute, so this `Index` object is constructed and then dropped:
it is never attached to the `students` table and `create_all` never emits
it.
-/

/-- One constraint of a persisted table definition. -/
inductive TableConstraint where
  | primaryKey (cname column : String)
  | unique (cname column : String)
  | check (cname sqltext : String)
deriving DecidableEq

/-- A secondary index of a persisted table definition. -/
structure IndexDef where
  indexName : String
  column : String
deriving DecidableEq

/-- A persisted table definition as emitted by `create_all`. -/
structure TableSchema where
  tableName : String
  columns : List String
  constraints : List TableConstraint
  indexes : List IndexDef
deriving DecidableEq

/-- The `__table_args__` tuple of the `Student` class. -/
def tableArgs : List TableConstraint :=
  [ .primaryKey "id_pk" "id",
    .unique "unique_email" "email",
    .check "grade_between_1_and_12" "grade BETWEEN 1 AND 12" ]

/-- The `Index` objects the class body constructs: the bare expression
`Index('index_name', 'name')` on the line after `__table_args__`. -/
def classBodyIndexExprs : List IndexDef := [⟨"index_name", "name"⟩]

/-- The `students` table as registered in `Base.metadata`: the columns in
declaration order, the `__table_args__` constraints, and no indexes —
the class-body `Index('index_name', 'name')` is never associated with the
table (see the section comment above), so the metadata holds none. -/
def studentsTable : TableSchema :=
  { tableName := "students",
    columns := ["id", "name", "email", "grade", "birthday", "enrolled_date"],
    constraints := tableArgs,
    indexes := [] }

/-- `create_schema()` — `Base.metadata.create_all(engine)` — creates
every table registered in the metadata, with its attached constraints and
indexes. -/
def create_schema : List TableSchema := [studentsTable]

/-!
The concrete `__main__` sequence of the script, as far as the claims
need it: the two sample inserts, the filtered query, the grade-increment
commit, the delete commit, and the final re-query and dereference.
Wall-clock instants are arbitrary abstract values: the class body runs at
instant 0, and the two `Student(...)` constructors run at instants 1 and
2.  `datetime(year=..., month=..., day=...)` literals are encoded as
`yyyymmdd` numbers.
-/

/-- The schema as defined when the script's class body executes. -/
def runSchema : Schema := defineSchema 0

/-- The sample instance `albert_einstein` (grade 6, born 1879-03-14). -/
def albert : NewStudent :=
  newStudent runSchema 1 "Albert Einstein" "albert.einstein@zurich.edu" 6 18790314 none

/-- The sample instance `alan_turing` (grade 11, born 1912-06-23). -/
def alan : NewStudent :=
  newStudent runSchema 2 "Alan Turing" "alan.turing@sherborne.edu" 11 19120623 none

/-- The store after `bulk_save_objects([albert_einstein, alan_turing])`
and the first `commit()`. -/
def store1 : Store := storeAfter [] (commitInserts [] [albert, alan])

/-- The filtered query
`query(Student).filter(Student.name.like('%Alan%'), Student.grade == 11)`
run against the store holding the two sample rows. -/
def alanQuery : List Student :=
  filterQuery [fun s => likeMatch "%Alan%" s.name, fun s => s.grade == 11] store1

/-- The store after the grade-increment loop and its `commit()` (grades
become 7 and 12). -/
def store2 : Store := storeAfter store1 (incCommit store1)

/-- `query(Student).filter(Student.name == "Albert Einstein").first()`:
the row fetched in order to delete it. -/
def albertFetched : Option Student :=
  queryFirst (filterQuery [fun s => s.name == "Albert Einstein"] store2)

/-- The store after `session.delete(albert_einstein)` and `commit()`. -/
def store3 : Store :=
  match albertFetched with
  | some v => deleteCommit store2 v
  | none => store2

/-- Re-running the same filter after the delete was committed:
`albert_einstein = query.first()`. -/
def albertRefetched : Option Student :=
  queryFirst (filterQuery [fun s => s.name == "Albert Einstein"] store3)

/-- The script's final step,
`print(f"New student ID is {albert_einstein.name}.")`: a dereference of
the re-queried result's `name` attribute. -/
def finalNameAccess : Except AccessError String := derefName albertRefetched

/-! Helper lemmas shared by the claim theorems. -/

theorem bumpGrade_email (s : Student) : (bumpGrade s).email = s.email := rfl

theorem bumpGrade_id (s : Student) : (bumpGrade s).id = s.id := rfl

theorem emailsNodup_map_bump (l : Store) :
    emailsNodup (l.map bumpGrade) = emailsNodup l := by
  induction l with
  | nil => rfl
  | cons a l ih =>
    simp only [List.map_cons, emailsNodup, List.all_map, ih]
    rfl

theorem idsNodup_map_bump (l : Store) :
    idsNodup (l.map bumpGrade) = idsNodup l := by
  induction l with
  | nil => rfl
  | cons a l ih =>
    simp only [List.map_cons, idsNodup, List.all_map, ih]
    rfl

theorem commitStore_eq_ok (new r : Store) (h : commitStore new = .ok r) : r = new := by
  unfold commitStore at h
  split at h
  · simp at h
  · split at h
    · simp at h
    · split at h
      · simp at h
      · simpa using h.symm

theorem commitStore_checks_ok (new : Store)
    (h1 : new.all (fun s => gradeOk s.grade) = true)
    (h2 : emailsNodup new = true) (h3 : idsNodup new = true) :
    commitStore new = .ok new := by
  unfold commitStore
  simp [h1, h2, h3]

theorem commitStore_grade_fail (new : Store)
    (h : new.all (fun s => gradeOk s.grade) = false) :
    commitStore new = .error .gradeRange := by
  unfold commitStore
  simp [h]

theorem commitStore_error_grade (new : Store) (v : ConstraintViolation)
    (h : commitStore new = .error v)
    (h2 : emailsNodup new = true) (h3 : idsNodup new = true) :
    v = .gradeRange := by
  unfold commitStore at h
  simp [h2, h3] at h
  split at h
  · exact (Except.error.injEq _ _ ▸ h).symm
  · exact absurd h (by simp)

/-! The claim theorems. -/

/-- Claim C3: in the store holding exactly the two sample students (Albert
Einstein, grade 6, and Alan Turing, grade 11), the query filtered by the
conjunction `name LIKE '%Alan%' AND grade == 11` returns exactly one
row, the student named "Alan Turing". -/
theorem c3_filter_conjunction :
    store1.map (fun s => (s.name, s.email, s.grade)) =
      [("Albert Einstein", "albert.einstein@zurich.edu", (6 : Int)),
       ("Alan Turing", "alan.turing@sherborne.edu", (11 : Int))] ∧
    alanQuery.length = 1 ∧
    alanQuery.map (fun s => s.name) = ["Alan Turing"] := by
  refine ⟨by decide, by decide, by decide⟩

/-- Claim C7: the script's final step dereferences `name` on the result of
re-querying the deleted record; that result is absent, the access is not
guarded, and so it fails with an error instead of completing normally —
and dereferencing any absent result is an error. -/
theorem c7_post_delete_deref :
    albertRefetched = none ∧
    finalNameAccess = .error .attributeOfNone ∧
    derefName none = .error .attributeOfNone := by
  refine ⟨by decide, rfl, rfl⟩

/-- Claim C9: the class body does construct `Index('index_name', 'name')`, but
that bare expression is never attached to the `students` table, so the
schema persisted by `create_schema()` contains no secondary index at all
— in particular none on the `name` column. -/
theorem c9_no_index_persisted :
    classBodyIndexExprs.any (fun ix => ix.column == "name") = true ∧
    create_schema = [studentsTable] ∧
    studentsTable.indexes = [] := by
  refine ⟨by decide, rfl, rfl⟩

/-- Claim C8: the `enrolled_date` default is the single value captured at
schema-definition time, so two students constructed without an explicit
`enrolled_date` at any two different instants both receive that same
fixed timestamp, and the store-assigned row keeps it unchanged. -/
theorem c8_enrolled_default_fixed (t0 t1 t2 : Nat) (hne : t1 ≠ t2)
    (n1 e1 n2 e2 : String) (g1 g2 : Int) (b1 b2 : Nat) :
    (newStudent (defineSchema t0) t1 n1 e1 g1 b1 none).enrolled_date = t0 ∧
    (newStudent (defineSchema t0) t2 n2 e2 g2 b2 none).enrolled_date = t0 ∧
    (newStudent (defineSchema t0) t1 n1 e1 g1 b1 none).enrolled_date =
      (newStudent (defineSchema t0) t2 n2 e2 g2 b2 none).enrolled_date ∧
    (∀ (store : Store) (s : NewStudent),
      (assignId store s).enrolled_date = s.enrolled_date) := by
  exact ⟨rfl, rfl, rfl, fun _ _ => rfl⟩

/-- Witness for C8 at schema instant 0 and construction instants 1 ≠ 2. -/
theorem c8_enrolled_default_fixed_witness :
    (1 : Nat) ≠ 2 ∧
    (newStudent (defineSchema 0) 1 "A" "a@x" 5 7 none).enrolled_date =
      (newStudent (defineSchema 0) 2 "B" "b@x" 6 8 none).enrolled_date := by
  exact ⟨by decide,
    (c8_enrolled_default_fixed 0 1 2 (by decide) "A" "a@x" "B" "b@x" 5 6 7 8).2.2.1⟩

/-- Claim C6: deleting a student present in the store and committing, then
re-running the query filtered by that student's original primary key and
taking `first()`, yields an absent result (no error is possible: the
query functions are total). -/
theorem c6_delete_then_requery (store : Store) (s : Student) (hmem : s ∈ store) :
    queryFirst (filterQuery [fun t => t.id == s.id] (deleteCommit store s)) = none := by
  have hnil : filterQuery [fun t => t.id == s.id] (deleteCommit store s) = [] := by
    unfold filterQuery deleteCommit
    rw [List.filter_filter]
    rw [List.filter_eq_nil_iff]
    intro a _
    by_cases h : a.id = s.id <;> simp [h]
  rw [hnil]
  rfl

/-- Witness for C6: delete the single row of a one-row store. -/
theorem c6_delete_then_requery_witness :
    (⟨1, "A", "a@x", 5, 7, 0⟩ : Student) ∈ ([⟨1, "A", "a@x", 5, 7, 0⟩] : Store) ∧
    queryFirst (filterQuery [fun t => t.id == (⟨1, "A", "a@x", 5, 7, 0⟩ : Student).id]
      (deleteCommit [⟨1, "A", "a@x", 5, 7, 0⟩] ⟨1, "A", "a@x", 5, 7, 0⟩)) = none := by
  exact ⟨by decide, c6_delete_then_requery _ _ (by decide)⟩

/-- A successful single INSERT appends exactly the id-assigned row. -/
theorem insertOne_ok_eq (store : Store) (s : NewStudent) (r : Store)
    (h : insertOne store s = .ok r) : r = store ++ [assignId store s] := by
  unfold insertOne at h
  split at h
  · simp at h
  · split at h
    · simp at h
    · simpa using h.symm

/-- Committing a single staged insert behaves as that one INSERT. -/
theorem commitInserts_single (store : Store) (s : NewStudent) :
    commitInserts store [s] = insertOne store s := by
  cases h : insertOne store s <;> simp [commitInserts, flushInserts, h]

/-- Counterexample to claim C1 as stated: on the empty store, staging two
students that share an email and committing once fails with the
unique-email violation, but the rolled-back store is empty — it does not
contain the first of the two records. -/
theorem c1_single_commit_counterexample :
    commitInserts [] [⟨"A", "same@x", 5, 1, 0⟩, ⟨"B", "same@x", 6, 2, 0⟩] =
      .error .uniqueEmail ∧
    storeAfter [] (commitInserts [] [⟨"A", "same@x", 5, 1, 0⟩, ⟨"B", "same@x", 6, 2, 0⟩]) =
      [] ∧
    ¬ (storeAfter [] (commitInserts [] [⟨"A", "same@x", 5, 1, 0⟩, ⟨"B", "same@x", 6, 2, 0⟩]) =
        [assignId [] ⟨"A", "same@x", 5, 1, 0⟩]) := by
  refine ⟨rfl, rfl, by decide⟩

/-- Claim C1 (amended): staging two same-email students and committing
once fails with the unique-email `ConstraintViolation` and the rolled-back
store is unchanged, so it contains neither record; the store retains only
the first record when the two are committed as separate units of work
(the first commit succeeds, the second fails and rolls back). -/
theorem c1_unique_email_amended (store : Store) (s1 s2 : NewStudent)
    (hdup : s1.email = s2.email)
    (hg1 : gradeOk s1.grade = true) (hg2 : gradeOk s2.grade = true)
    (hfresh : store.all (fun t => !(t.email == s1.email)) = true) :
    commitInserts store [s1, s2] = .error .uniqueEmail ∧
    storeAfter store (commitInserts store [s1, s2]) = store ∧
    commitInserts store [s1] = .ok (store ++ [assignId store s1]) ∧
    commitInserts (store ++ [assignId store s1]) [s2] = .error .uniqueEmail ∧
    storeAfter (store ++ [assignId store s1])
      (commitInserts (store ++ [assignId store s1]) [s2]) = store ++ [assignId store s1] := by
  have hany1 : store.any (fun t => t.email == s1.email) = false := by
    rw [List.any_eq_false]
    intro t ht
    have h := List.all_eq_true.mp hfresh t ht
    simpa using h
  have hins1 : insertOne store s1 = .ok (store ++ [assignId store s1]) := by
    simp [insertOne, hg1, hany1]
  have hany2 : (store ++ [assignId store s1]).any (fun t => t.email == s2.email) = true := by
    rw [List.any_eq_true]
    exact ⟨assignId store s1, by simp, by simp [assignId, hdup]⟩
  have hins2 : insertOne (store ++ [assignId store s1]) s2 = .error .uniqueEmail := by
    simp [insertOne, hg2, hany2]
  have hboth : commitInserts store [s1, s2] = .error .uniqueEmail := by
    simp [commitInserts, flushInserts, hins1, hins2]
  refine ⟨hboth, by rw [hboth]; rfl, ?_, ?_, ?_⟩
  · rw [commitInserts_single]; exact hins1
  · rw [commitInserts_single]; exact hins2
  · rw [commitInserts_single, hins2]; rfl

/-- Witness for C1 on the empty store with two concrete same-email
students: the single commit fails and leaves the store empty. -/
theorem c1_unique_email_amended_witness :
    commitInserts [] [⟨"A", "same@x", 5, 1, 0⟩, ⟨"B", "same@x", 6, 2, 0⟩] =
      .error .uniqueEmail ∧
    storeAfter [] (commitInserts [] [⟨"A", "same@x", 5, 1, 0⟩, ⟨"B", "same@x", 6, 2, 0⟩]) =
      [] := by
  refine ⟨(c1_unique_email_amended [] ⟨"A", "same@x", 5, 1, 0⟩ ⟨"B", "same@x", 6, 2, 0⟩
      rfl (by decide) (by decide) rfl).1,
    (c1_unique_email_amended [] ⟨"A", "same@x", 5, 1, 0⟩ ⟨"B", "same@x", 6, 2, 0⟩
      rfl (by decide) (by decide) rfl).2.1⟩

/-- Claim C2: for a staged student whose email is fresh, the commit
succeeds exactly when the grade lies in the inclusive range [1, 12] (so
grades 1 and 12 succeed), fails with the range violation at grades 0 and
13, and constructing the instance never validates the grade (the
violation surfaces only at commit time). -/
theorem c2_grade_range_at_commit (store : Store) (s : NewStudent)
    (hfresh : store.all (fun t => !(t.email == s.email)) = true) :
    (commitInserts store [s] = .ok (store ++ [assignId store s]) ↔
      1 ≤ s.grade ∧ s.grade ≤ 12) ∧
    ((s.grade = 0 ∨ s.grade = 13) → commitInserts store [s] = .error .gradeRange) ∧
    (∀ (sch : Schema) (now : Nat) (n e : String) (g : Int) (b : Nat) (d : Option Nat),
      (newStudent sch now n e g b d).grade = g) := by
  have hany : store.any (fun t => t.email == s.email) = false := by
    rw [List.any_eq_false]
    intro t ht
    have h := List.all_eq_true.mp hfresh t ht
    simpa using h
  rw [commitInserts_single]
  refine ⟨?_, ?_, fun _ _ _ _ _ _ _ => rfl⟩
  · by_cases hg : 1 ≤ s.grade ∧ s.grade ≤ 12
    · have hgo : gradeOk s.grade = true := by simp [gradeOk, hg]
      simp [insertOne, hgo, hany, hg]
    · have hgo : gradeOk s.grade = false := by simp [gradeOk]; omega
      simp [insertOne, hgo, hg]
  · intro h
    have hgo : gradeOk s.grade = false := by
      rcases h with h | h <;> rw [h] <;> decide
    simp [insertOne, hgo]

/-- Witness for C2: on the empty store, committing a grade-0 student
fails with the range violation and committing a grade-12 student
succeeds. -/
theorem c2_grade_range_at_commit_witness :
    ([] : Store).all (fun t => !(t.email == (⟨"A", "a@x", 0, 1, 0⟩ : NewStudent).email)) =
      true ∧
    commitInserts [] [⟨"A", "a@x", 0, 1, 0⟩] = .error .gradeRange ∧
    commitInserts [] [⟨"B", "b@x", 12, 1, 0⟩] =
      .ok ([] ++ [assignId [] ⟨"B", "b@x", 12, 1, 0⟩]) := by
  refine ⟨rfl,
    (c2_grade_range_at_commit [] ⟨"A", "a@x", 0, 1, 0⟩ rfl).2.1 (Or.inl rfl),
    ((c2_grade_range_at_commit [] ⟨"B", "b@x", 12, 1, 0⟩ rfl).1).mpr (by decide)⟩

/-- Claim C4: starting from any store satisfying the declared
constraints, incrementing every grade and committing, twice, leaves every
student's grade increased by exactly 2 when no grade would leave the
range [1, 12]; when some student's grade would leave the range (in
particular one already at 12, whose first commit already rolls back), the
second commit fails with the range `ConstraintViolation`. -/
theorem c4_double_increment (store : Store) (hv : validStore store = true) :
    ((∀ s ∈ store, s.grade + 2 ≤ 12) →
      secondInc store = .ok (store.map (fun s => { s with grade := s.grade + 2 })) ∧
      afterSecondInc store = store.map (fun s => { s with grade := s.grade + 2 })) ∧
    ((∃ s ∈ store, 12 < s.grade + 2) → secondInc store = .error .gradeRange) := by
  have hv3 := hv
  rw [validStore, Bool.and_eq_true, Bool.and_eq_true] at hv3
  obtain ⟨⟨hva, hve⟩, hvi⟩ := hv3
  have hlow : ∀ s ∈ store, 1 ≤ s.grade := by
    intro s hs
    have h := List.all_eq_true.mp hva s hs
    rw [gradeOk, decide_eq_true_eq] at h
    exact h.1
  have hmm : incrementAllGrades (incrementAllGrades store) =
      store.map (fun s => { s with grade := s.grade + 2 }) := by
    rw [incrementAllGrades, incrementAllGrades, List.map_map]
    apply List.map_congr_left
    intro s _
    show bumpGrade (bumpGrade s) = _
    simp only [bumpGrade]
    rw [add_assoc]
    norm_num
  constructor
  · intro hA
    have hall1 : (incrementAllGrades store).all (fun s => gradeOk s.grade) = true := by
      rw [incrementAllGrades, List.all_map, List.all_eq_true]
      intro s hs
      show gradeOk (bumpGrade s).grade = true
      have h1 := hlow s hs
      have h2 := hA s hs
      simp only [bumpGrade, gradeOk, decide_eq_true_eq]
      constructor <;> omega
    have he1 : emailsNodup (incrementAllGrades store) = true := by
      rw [incrementAllGrades, emailsNodup_map_bump]; exact hve
    have hi1 : idsNodup (incrementAllGrades store) = true := by
      rw [incrementAllGrades, idsNodup_map_bump]; exact hvi
    have h1 : incCommit store = .ok (incrementAllGrades store) :=
      commitStore_checks_ok _ hall1 he1 hi1
    have hA1 : afterFirstInc store = incrementAllGrades store := by
      rw [afterFirstInc, h1]; rfl
    have hall2 : (incrementAllGrades (incrementAllGrades store)).all
        (fun s => gradeOk s.grade) = true := by
      rw [hmm, List.all_map, List.all_eq_true]
      intro s hs
      have h1' := hlow s hs
      have h2' := hA s hs
      simp only [Function.comp, gradeOk, decide_eq_true_eq]
      omega
    have he2 : emailsNodup (incrementAllGrades (incrementAllGrades store)) = true := by
      rw [incrementAllGrades, emailsNodup_map_bump]; exact he1
    have hi2 : idsNodup (incrementAllGrades (incrementAllGrades store)) = true := by
      rw [incrementAllGrades, idsNodup_map_bump]; exact hi1
    have h2 : incCommit (incrementAllGrades store) =
        .ok (incrementAllGrades (incrementAllGrades store)) :=
      commitStore_checks_ok _ hall2 he2 hi2
    have hsec : secondInc store =
        .ok (store.map (fun s => { s with grade := s.grade + 2 })) := by
      rw [secondInc, hA1, h2, hmm]
    refine ⟨hsec, ?_⟩
    rw [afterSecondInc, hsec]
    rfl
  · rintro ⟨s, hs, hgt⟩
    cases h : incCommit store with
    | ok r =>
      have hr : r = incrementAllGrades store := commitStore_eq_ok _ _ h
      have hA1 : afterFirstInc store = incrementAllGrades store := by
        rw [afterFirstInc, h, hr]; rfl
      rw [secondInc, hA1]
      have hfail : (incrementAllGrades (incrementAllGrades store)).all
          (fun t => gradeOk t.grade) = false := by
        rw [hmm, List.all_eq_false]
        refine ⟨{ s with grade := s.grade + 2 }, List.mem_map_of_mem _ hs, ?_⟩
        simp only [gradeOk, decide_eq_true_eq]
        intro hcon
        omega
      exact commitStore_grade_fail _ hfail
    | error v =>
      have hA1 : afterFirstInc store = store := by
        rw [afterFirstInc, h]; rfl
      have h' : commitStore (incrementAllGrades store) = .error v := h
      have he1 : emailsNodup (incrementAllGrades store) = true := by
        rw [incrementAllGrades, emailsNodup_map_bump]; exact hve
      have hi1 : idsNodup (incrementAllGrades store) = true := by
        rw [incrementAllGrades, idsNodup_map_bump]; exact hvi
      have hveq : v = .gradeRange := commitStore_error_grade _ v h' he1 hi1
      rw [secondInc, hA1, h, hveq]

/-- Witness for C4: a one-row store at grade 5 ends at grade 7 after the
two increment-and-commit rounds. -/
theorem c4_double_increment_witness :
    validStore [⟨1, "A", "a@x", 5, 7, 9⟩] = true ∧
    afterSecondInc [⟨1, "A", "a@x", 5, 7, 9⟩] = [⟨1, "A", "a@x", 7, 7, 9⟩] := by
  refine ⟨by decide, ?_⟩
  have h := ((c4_double_increment [⟨1, "A", "a@x", 5, 7, 9⟩] (by decide)).1 (by decide)).2
  exact h.trans (by decide)

/-- Claim C5: with students of grades 6 and 11, ordering by grade
descending puts the grade-11 student first (in either input order); in
general the first result of a descending ordering is grade-maximal among
all rows, the ascending direction produces an ascending-sorted sequence,
and `first()` is exactly the head of the ordered sequence (ordering
applies before limiting). -/
theorem c5_order_by_desc (s1 s2 : Student) (h1 : s1.grade = 6) (h2 : s2.grade = 11) :
    queryFirst (order_by gradeKey .desc [s1, s2]) = some s2 ∧
    queryFirst (order_by gradeKey .desc [s2, s1]) = some s2 ∧
    (∀ (key : Student → Int) (rows : List Student) (x : Student),
      queryFirst (order_by key .desc rows) = some x → ∀ y ∈ rows, key y ≤ key x) ∧
    (∀ (key : Student → Int) (rows : List Student),
      (order_by key .asc rows).Pairwise (fun a b => key a ≤ key b)) ∧
    (∀ (key : Student → Int) (dir : Direction) (rows : List Student),
      queryFirst (order_by key dir rows) = (order_by key dir rows).head?) := by
  have hr : ¬ dirRel gradeKey Direction.desc s1 s2 := by
    simp only [dirRel, gradeKey, h1, h2]
    omega
  have hr2 : dirRel gradeKey Direction.desc s2 s1 := by
    simp only [dirRel, gradeKey, h1, h2]
    omega
  refine ⟨?_, ?_, ?_, ?_, fun _ _ _ => rfl⟩
  · have e1 : order_by gradeKey .desc [s1, s2] = [s2, s1] := by
      simp [order_by, List.insertionSort, List.orderedInsert, hr]
    rw [e1]
    rfl
  · have e2 : order_by gradeKey .desc [s2, s1] = [s2, s1] := by
      simp [order_by, List.insertionSort, List.orderedInsert, hr2]
    rw [e2]
    rfl
  · intro key rows x hx y hy
    have hs := List.sorted_insertionSort (dirRel key Direction.desc) rows
    cases hcase : List.insertionSort (dirRel key Direction.desc) rows with
    | nil =>
      rw [queryFirst, order_by, hcase] at hx
      simp at hx
    | cons a t =>
      have hax : a = x := by
        rw [queryFirst, order_by, hcase] at hx
        simpa using hx
      have hymem : y ∈ a :: t := by
        have hm : y ∈ List.insertionSort (dirRel key Direction.desc) rows :=
          ((List.perm_insertionSort (dirRel key Direction.desc) rows).mem_iff).mpr hy
        rw [hcase] at hm
        exact hm
      rw [hcase] at hs
      rcases List.mem_cons.mp hymem with hya | hyt
      · rw [hya, hax]
      · have := List.rel_of_sorted_cons hs y hyt
        rw [← hax]
        exact this
  · intro key rows
    exact List.sorted_insertionSort (dirRel key Direction.asc) rows

/-- Witness for C5 on two concrete rows with grades 6 and 11. -/
theorem c5_order_by_desc_witness :
    queryFirst (order_by gradeKey .desc
      [⟨1, "Albert Einstein", "a@x", 6, 7, 9⟩, ⟨2, "Alan Turing", "b@x", 11, 8, 9⟩]) =
      some ⟨2, "Alan Turing", "b@x", 11, 8, 9⟩ :=
  (c5_order_by_desc ⟨1, "Albert Einstein", "a@x", 6, 7, 9⟩
    ⟨2, "Alan Turing", "b@x", 11, 8, 9⟩ rfl rfl).1

/-- Claim C10: a successful grade-increment commit changes only the
`grade` field (by exactly +1): row count is preserved and every row keeps
its `id`, `name`, `email`, `birthday` and `enrolled_date`. -/
theorem c10_increment_frame (store r : Store) (h : incCommit store = .ok r) :
    r.length = store.length ∧
    List.Forall₂ (fun (a b : Student) => b.id = a.id ∧ b.name = a.name ∧
      b.email = a.email ∧ b.birthday = a.birthday ∧
      b.enrolled_date = a.enrolled_date ∧ b.grade = a.grade + 1) store r := by
  have hr : r = incrementAllGrades store := commitStore_eq_ok _ _ h
  subst hr
  constructor
  · simp [incrementAllGrades]
  · rw [incrementAllGrades, List.forall₂_map_right_iff, List.forall₂_same]
    intro x _
    exact ⟨rfl, rfl, rfl, rfl, rfl, rfl⟩

/-- Witness for C10 on a concrete one-row store. -/
theorem c10_increment_frame_witness :
    incCommit [⟨1, "A", "a@x", 5, 7, 9⟩] = .ok [⟨1, "A", "a@x", 6, 7, 9⟩] ∧
    List.Forall₂ (fun (a b : Student) => b.id = a.id ∧ b.name = a.name ∧
      b.email = a.email ∧ b.birthday = a.birthday ∧
      b.enrolled_date = a.enrolled_date ∧ b.grade = a.grade + 1)
      [⟨1, "A", "a@x", 5, 7, 9⟩] [⟨1, "A", "a@x", 6, 7, 9⟩] :=
  ⟨rfl, (c10_increment_frame [⟨1, "A", "a@x", 5, 7, 9⟩] [⟨1, "A", "a@x", 6, 7, 9⟩] rfl).2⟩
